import Mathlib

/-!
# typegraph: struct dependency graph extraction

A shallow embedding of `typegraph.go`.  The typed program model supplied by
`go/types` and `golang.org/x/tools/go/loader` is represented by plain data:
type expressions are a tree of type constructors, a named type is a leaf that
carries only its identity, and the underlying type of a named type is looked up
in an environment (so that cyclic record graphs are representable).
-/

namespace Typegraph

/-! ## The typed program model -/

/-- Identity of a `*types.Named`: the path of the declaring package (absent for
universe types such as `error`) and the declared name. -/
structure Named where
  pkg : Option String
  name : String
deriving DecidableEq, Repr

/-- The text of `(*types.Named).String()`: the package path, a dot, the name;
just the name when the type has no package. -/
def Named.String (n : Named) : String :=
  match n.pkg with
  | some p => p ++ "." ++ n.name
  | none => n.name

/-- Direction of a channel type. -/
inductive ChanDir where
  | SendRecv
  | SendOnly
  | RecvOnly
deriving DecidableEq, Repr

/-- The implementations of `types.Type`.  `Basic` covers the predeclared types
and the invalid (unresolved) type. -/
inductive GoType where
  | Basic (name : String)
  | Named (n : Typegraph.Named)
  | Pointer (elem : GoType)
  | Array (len : Nat) (elem : GoType)
  | Slice (elem : GoType)
  | Map (key : GoType) (elem : GoType)
  | Chan (dir : ChanDir) (elem : GoType)
  | Struct (fields : List (String × GoType))
  | Interface (methods : List (String × GoType))
  | Signature (params : List GoType) (results : List GoType)
  | Tuple (vars : List GoType)

/-- A struct field (`*types.Var`): `Name()` and `Type()`. -/
abbrev Var := String × GoType

/-- The `Name()` of a field. -/
def Var.Name (f : Var) : String := f.1

/-- The `Type()` of a field. -/
def Var.Type (f : Var) : GoType := f.2

/-! ## findNamedTypes -/

/-- findNamedTypes follows the given type, collecting Named Types it may
reference. -/
def findNamedTypes : GoType → List Named
  | .Named t => [t]
  | .Array _ elem => findNamedTypes elem
  | .Chan _ elem => findNamedTypes elem
  | .Map key elem => findNamedTypes key ++ findNamedTypes elem
  | .Pointer elem => findNamedTypes elem
  | .Slice elem => findNamedTypes elem
  | _ => []

mutual
/-- Whether a named type occurs anywhere in a type expression, including inside
the fields of an anonymous struct, the methods of an interface and the
parameters and results of a function type. -/
def containsNamed : GoType → Bool
  | .Basic _ => false
  | .Named _ => true
  | .Pointer elem => containsNamed elem
  | .Array _ elem => containsNamed elem
  | .Slice elem => containsNamed elem
  | .Map key elem => containsNamed key || containsNamed elem
  | .Chan _ elem => containsNamed elem
  | .Struct fields => containsNamedFields fields
  | .Interface methods => containsNamedFields methods
  | .Signature params results => containsNamedList params || containsNamedList results
  | .Tuple vars => containsNamedList vars
/-- Whether a named type occurs in the type of one of the listed fields. -/
def containsNamedFields : List (String × GoType) → Bool
  | [] => false
  | (_, t) :: rest => containsNamed t || containsNamedFields rest
/-- Whether a named type occurs in one of the listed types. -/
def containsNamedList : List GoType → Bool
  | [] => false
  | t :: rest => containsNamed t || containsNamedList rest
end

/-! ## Go maps -/

/-- A Go `map[string]ν`: its entries, at most one per key.  The position of an
entry in the list has no meaning for the program: a `range` statement visits
the entries in an order of its own. -/
structure GoMap (ν : Type) where
  entries : List (String × ν)

/-- The empty map, `make(map[string]ν)`. -/
def GoMap.empty {ν : Type} : GoMap ν := ⟨[]⟩

/-- The lookup `m[k]`, with its presence flag. -/
def GoMap.get? {ν : Type} (m : GoMap ν) (k : String) : Option ν :=
  m.entries.lookup k

/-- The assignment `m[k] = v`: any entry for `k` is replaced. -/
def GoMap.set {ν : Type} (m : GoMap ν) (k : String) (v : ν) : GoMap ν :=
  ⟨m.entries.filter (fun e => e.1 != k) ++ [(k, v)]⟩

/-- The number of entries, `len(m)`. -/
def GoMap.len {ν : Type} (m : GoMap ν) : Nat := m.entries.length

/-- The keys of the map. -/
def GoMap.keys {ν : Type} (m : GoMap ν) : List String := m.entries.map Prod.fst

/-! ## findStructs -/

/-- A `*types.Package`: `Path()`, `Name()` and the identity of its `Scope()`. -/
structure Package where
  Path : String
  Name : String
  Scope : Nat
deriving DecidableEq, Repr

/-- A `types.Object` found among the values of `Info.Defs`.  Only type names are
inspected by the program; `Parent` is the identity of the enclosing scope and
`Typ` is the result of `Type()`.  The other objects (variables, functions,
constants, the nil entries) are `other`. -/
inductive Object where
  | TypeName (Parent : Nat) (Name : String) (Typ : GoType)
  | other

/-- A `*loader.PackageInfo`: the package and the values of its `Defs` map in the
order in which the `range` statement of `findStructs` visits them. -/
structure PackageInfo where
  Pkg : Package
  Defs : List Object

/-- The record kept for every struct found. -/
structure structType where
  pkg : Package
  name : String
  fullName : String
  struc : List Var

/-- The body of the loop of `findStructs` over `pkg.Defs`, where `pkg` is
`pkg.Pkg`; `none` is a run-time panic.  `underlying` is
`(*types.Named).Underlying()`. -/
def findStructsLoop (underlying : Named → GoType) (pkg : Package) :
    List Object → GoMap structType → Option (GoMap structType)
  | [], ret => some ret
  | .TypeName parent name typ :: rest, ret =>
    if parent != pkg.Scope then
      -- Not at package-level scope, e.g. defined locally in a func.
      findStructsLoop underlying pkg rest ret
    else
      match typ with
      | .Named n =>
        match underlying n with
        | .Struct str =>
          let st : structType :=
            { pkg := pkg, name := name, fullName := pkg.Path ++ "." ++ name, struc := str }
          findStructsLoop underlying pkg rest (ret.set st.fullName st)
        | _ => findStructsLoop underlying pkg rest ret
      | _ => none -- the unchecked assertion `typName.Type().(*types.Named)` fails
  | .other :: rest, ret => findStructsLoop underlying pkg rest ret

/-- findStructs returns a map of structure types in the package.  A nil package
(`none`) is dereferenced, which panics. -/
def findStructs (underlying : Named → GoType) : Option PackageInfo → Option (GoMap structType)
  | none => none
  | some pkg => findStructsLoop underlying pkg.Pkg pkg.Defs GoMap.empty

/-! ## The graphviz templates -/

/-- Field row passed into the struct template; `Typ` is the field `Type`. -/
structure field where
  Name : String
  Typ : String
  FullType : String
deriving DecidableEq, Repr

/-- Node data passed into the struct template. -/
structure structInfo where
  Name : String
  FullName : String
  Fields : List field
deriving DecidableEq, Repr

/-- Edge data passed into the arrow template. -/
structure useInfo where
  FromStruct : String
  FromField : String
  ToStruct : String
deriving DecidableEq, Repr

/-- The text produced by `hdrTmpl`. -/
def hdrTmpl : String :=
  "digraph \"structDiagram\" \x7b\n  graph [\n    //rankdir=\"LR\"\n    label=\"\\nGenerated by typegraph\"\n    labeljust=\"l\"\n    //ranksep=\"0.5\"\n    //nodesep=\"0.2\"\n    fontsize=\"12\"\n    fontname=\"Helvetica\"\n    bgcolor=\"#f8f8f8\"\n  ];\n  node [\n    fontname=\"Helvetica\"\n    fontsize=\"12\"\n    shape=\"plaintext\"\n  ];\n  edge [\n    arrowsize=\"1.5\"\n  ];\n"

/-- The text produced by the body of `range .Fields` in `structTmpl` for one
field.  `text/template` prints every value as it is. -/
def structTmplField (f : field) : String :=
  "      <TR><TD PORT=\"X" ++ f.Name ++ "\" COLSPAN=\"1\" BGCOLOR=\"#f0f0ff\" ALIGN=\"LEFT\">" ++ f.Name
    ++ "</TD> <TD PORT=\"" ++ f.Name ++ "\" COLSPAN=\"2\" BGCOLOR=\"#f0f0ff\" ALIGN=\"LEFT\">" ++ f.Typ
    ++ "</TD></TR>\n      "

/-- The text produced by `structTmpl` for one struct. -/
def structTmpl (s : structInfo) : String :=
  "\"" ++ s.FullName ++ "\" [\n    label=<\n    <TABLE BORDER=\"0\" CELLBORDER=\"1\" CELLSPACING=\"0\" BGCOLOR=\"#ffffff\">\n      <TR><TD COLSPAN=\"3\" BGCOLOR=\"#e0e0ff\" ALIGN=\"CENTER\">"
    ++ s.Name ++ "</TD></TR>\n      "
    ++ String.join (s.Fields.map structTmplField)
    ++ "\n    </TABLE>>\n    tooltip=\"" ++ s.FullName ++ "\"\n  ];\n"

/-- The text produced by `arrowTmpl` for one link. -/
def arrowTmpl (l : useInfo) : String :=
  "  \"" ++ l.FromStruct ++ "\":\"" ++ l.FromField ++ "\" -> \"" ++ l.ToStruct ++ "\" [];\n"

/-- The text produced by `tailTmpl`. -/
def tailTmpl : String := "\n\x7d\n"

/-! ## The build loop of `main` -/

/-- The loop over `names` in `main`: a link is appended for every named type
whose full name is a key of `structs`. -/
def appendLinks (structs : GoMap structType) (str : structType) (f : Var) :
    List Named → List useInfo → List useInfo
  | [], links => links
  | name :: rest, links =>
    let fullName := name.String
    if (structs.get? fullName).isSome then
      appendLinks structs str f rest
        (links ++ [{ FromStruct := str.fullName, FromField := f.Name, ToStruct := fullName }])
    else
      appendLinks structs str f rest links

/-- The loop over the fields of one struct in `main`.  `typeString t q` is
`types.TypeString(t, q)`, where the qualifier `q` is `types.RelativeTo(pkg)`
for `some pkg` and nil for `none`. -/
def fieldLoop (typeString : GoType → Option Package → String) (structs : GoMap structType)
    (str : structType) : List Var → List useInfo × structInfo → List useInfo × structInfo
  | [], st => st
  | f :: rest, (links, s) =>
    let names := findNamedTypes f.Type
    let links := appendLinks structs str f names links
    let s := { s with Fields := s.Fields ++
      [{ Name := f.Name, Typ := typeString f.Type (some str.pkg), FullType := typeString f.Type none }] }
    fieldLoop typeString structs str rest (links, s)

/-- The loop of `main` over the structs, visited in the order `order`.  The
state is the sequence of texts written to `out` so far and `links`. -/
def structLoop (typeString : GoType → Option Package → String) (structs : GoMap structType) :
    List structType → List String × List useInfo → List String × List useInfo
  | [], st => st
  | str :: rest, (out, links) =>
    let s : structInfo := { Name := str.name, FullName := str.fullName, Fields := [] }
    let r := fieldLoop typeString structs str str.struc (links, s)
    structLoop typeString structs rest (out ++ [structTmpl r.2], r.1)

/-- The loop of `main` that renders the links. -/
def arrowLoop : List useInfo → List String → List String
  | [], out => out
  | l :: rest, out => arrowLoop rest (out ++ [arrowTmpl l])

/-! ## Processes -/

/-- What a run has done to its surroundings: the text written to the standard
streams, the files created (each with the sequence of texts written to it) and
the external commands run. -/
structure World where
  stdout : String
  stderr : String
  files : List (String × List String)
  commands : List (List String)
deriving DecidableEq, Repr

/-- How a computation ends: normally with a value, by `os.Exit` with a status,
or by a run-time panic. -/
inductive Result (α : Type) where
  | ok (a : α) (w : World)
  | exited (code : Nat) (w : World)
  | panicked (w : World)
deriving DecidableEq, Repr

/-- A computation of the process. -/
def M (α : Type) : Type := World → Result α

/-- Sequencing: nothing runs after an exit or a panic. -/
def M.bind {α β : Type} (m : M α) (f : α → M β) : M β := fun w =>
  match m w with
  | .ok a w1 => f a w1
  | .exited c w1 => .exited c w1
  | .panicked w1 => .panicked w1

instance : Monad M where
  pure a := fun w => .ok a w
  bind := M.bind

/-- The call `os.Exit(code)`. -/
def osExit {α : Type} (code : Nat) : M α := fun w => .exited code w

/-- A run-time panic. -/
def goPanic {α : Type} : M α := fun w => .panicked w

/-- Formatting with `fmt`, for the formats this program uses: literal text and
the verb `%s`. -/
def sprintfChars : List Char → List String → List Char
  | '%' :: 's' :: rest, p :: ps => p.data ++ sprintfChars rest ps
  | '%' :: 's' :: rest, [] => "%!s(MISSING)".data ++ sprintfChars rest []
  | c :: rest, ps => c :: sprintfChars rest ps
  | [], _ => []

/-- The text of `fmt.Sprintf(format, params...)`. -/
def sprintf (format : String) (params : List String) : String :=
  ⟨sprintfChars format.data params⟩

/-- The call `fmt.Fprintf(os.Stderr, format, params...)`. -/
def fprintfStderr (format : String) (params : List String) : M Unit := fun w =>
  .ok () { w with stderr := w.stderr ++ sprintf format params }

/-- The call `fmt.Println(a, b)`. -/
def println (a b : String) : M Unit := fun w =>
  .ok () { w with stdout := w.stdout ++ a ++ " " ++ b ++ "\n" }

/-- The function `abort`. -/
def abort (format : String) (params : List String) : M Unit := do
  fprintfStderr format params
  osExit 2

/-- The function `must`; `err` is `none` for a nil error. -/
def must (err : Option String) (format : String) (params : List String) : M Unit :=
  match err with
  | some _ => abort format params
  | none => pure ()

/-- Creates (or truncates) a file. -/
def createFile (name : String) : M Unit := fun w =>
  .ok () { w with files := (name, []) :: w.files.filter (fun e => e.1 != name) }

/-- Sets what has been written to a file. -/
def writeFile (name : String) (out : List String) : M Unit := fun w =>
  .ok () { w with files := w.files.map (fun e => if e.1 = name then (name, out) else e) }

/-- Runs an external command. -/
def runCommand (args : List String) : M Unit := fun w =>
  .ok () { w with commands := w.commands ++ [args] }

/-! ## main -/

/-- A loaded `*loader.Program`: `Imported`, the entries of `AllPackages` in the
order in which `main` ranges over them, and the accessors of the type checker
that the program calls. -/
structure Program where
  Imported : GoMap PackageInfo
  AllPackages : List (Package × PackageInfo)
  underlying : Named → GoType
  typeString : GoType → Option Package → String

/-- What the surroundings answer during one run: the result of `conf.Load()`,
the order in which a `range` statement visits a map of structs, and the errors
of `os.Create` and of the `dot` command. -/
structure Env where
  load : Except String Program
  range : (m : GoMap structType) → { l : List (String × structType) // l.Perm m.entries }
  createErr : Option String
  runErr : Option String

/-- The inner loop `for k, v := range findStructs(pkg) { structs[k] = v }`. -/
def copyStructs : List (String × structType) → GoMap structType → GoMap structType
  | [], structs => structs
  | (k, v) :: rest, structs => copyStructs rest (structs.set k v)

/-- The loop of `main` over `pkgNames` that gathers the structs; `none` is a
run-time panic. -/
def collectStructs (env : Env) (prog : Program) :
    List String → GoMap structType → Option (GoMap structType)
  | [], structs => some structs
  | name :: rest, structs =>
    let pkg := prog.Imported.get? name
    match findStructs prog.underlying pkg with
    | none => none
    | some found => collectStructs env prog rest (copyStructs (env.range found).1 structs)

/-- The loop of `main` that prints every package. -/
def printPackages : List (Package × PackageInfo) → M Unit
  | [] => pure ()
  | (k, v) :: rest => do
    println k.Path v.Pkg.Name
    printPackages rest

/-- The function `main`, for the package names `pkgNames`. -/
def mainWith (pkgNames : List String) (env : Env) : M Unit := do
  let (prog, err) : Option Program × Option String :=
    match env.load with
    | .ok prog => (some prog, none)
    | .error e => (none, some e)
  must err "%s" err.toList
  match prog with
  | none => goPanic
  | some prog =>
    match collectStructs env prog pkgNames GoMap.empty with
    | none => goPanic
    | some structs =>
      if structs.len == 0 then
        abort "No structures to print" []
      printPackages prog.AllPackages
      osExit 2
      must env.createErr "" []
      createFile "test.dot"
      let out := [hdrTmpl]
      let r := structLoop prog.typeString structs ((env.range structs).1.map Prod.snd) (out, [])
      let out := arrowLoop r.2 r.1
      let out := out ++ [tailTmpl]
      writeFile "test.dot" out
      runCommand ["dot", "-Tsvg", "-O", "test.dot"]
      must env.runErr "" []

/-- The function `main`. -/
def main (env : Env) : M Unit :=
  mainWith ["xx/types", "xx/test2"] env

/-- The state of the surroundings before a run. -/
def World.initial : World := { stdout := "", stderr := "", files := [], commands := [] }

/-! ## Vocabulary of the specification -/

/-- The single-element type constructors: pointer, array, slice and channel. -/
inductive Wrapper where
  | pointer
  | array (len : Nat)
  | slice
  | chan (dir : ChanDir)
deriving DecidableEq, Repr

/-- Applies one single-element constructor to a type. -/
def Wrapper.apply : Wrapper → GoType → GoType
  | .pointer, t => .Pointer t
  | .array len, t => .Array len t
  | .slice, t => .Slice t
  | .chan dir, t => .Chan dir t

/-- Nests the constructors `ws` around `t`, the first of `ws` outermost. -/
def wrapAll (ws : List Wrapper) (t : GoType) : GoType :=
  ws.foldr Wrapper.apply t

/-- The outermost constructor is none of named, pointer, array, slice, map or
channel. -/
def GoType.isOtherKind : GoType → Bool
  | .Basic _ => true
  | .Struct _ => true
  | .Interface _ => true
  | .Signature _ _ => true
  | .Tuple _ => true
  | _ => false

/-- The edges the specification expects from one field: the references found in
the field type, those outside the record set removed, each turned into an edge
from the record and field. -/
def specFieldEdges (structs : GoMap structType) (str : structType) (f : Var) : List useInfo :=
  ((findNamedTypes f.Type).filter (fun n => (structs.get? n.String).isSome)).map
    (fun n => { FromStruct := str.fullName, FromField := f.Name, ToStruct := n.String })

/-- The edges the specification expects from one record: those of its fields, in
declaration order. -/
def specRecordEdges (structs : GoMap structType) (str : structType) : List useInfo :=
  str.struc.flatMap (specFieldEdges structs str)

/-- The node data of one record: its names and one row per field, in
declaration order. -/
def specNode (typeString : GoType → Option Package → String) (str : structType) : structInfo :=
  { Name := str.name, FullName := str.fullName,
    Fields := str.struc.map (fun f =>
      { Name := f.Name, Typ := typeString f.Type (some str.pkg), FullType := typeString f.Type none }) }

/-! ## Sample programs -/

/-- A rendering of types for the sample programs: on pointers, slices, channels,
basic and named types it gives the text of `types.TypeString`, a named type of
the package of the qualifier being printed without its path. -/
def sampleTypeString : GoType → Option Package → String
  | .Basic name, _ => name
  | .Named n, q =>
    match n.pkg with
    | some p => if q.map Package.Path = some p then n.name else p ++ "." ++ n.name
    | none => n.name
  | .Pointer elem, q => "*" ++ sampleTypeString elem q
  | .Slice elem, q => "[]" ++ sampleTypeString elem q
  | .Chan .RecvOnly elem, q => "<-chan " ++ sampleTypeString elem q
  | .Chan .SendOnly elem, q => "chan<- " ++ sampleTypeString elem q
  | _, _ => "?"

/-- Package `P1` of the sample program. -/
def pkgP1 : Package := { Path := "P1", Name := "P1", Scope := 1 }

/-- Package `P2` of the sample program. -/
def pkgP2 : Package := { Path := "P2", Name := "P2", Scope := 2 }

/-- The named type `P1.A`. -/
def namedA : Named := { pkg := some "P1", name := "A" }

/-- The named type `P2.B`. -/
def namedB : Named := { pkg := some "P2", name := "B" }

/-- The record `type A struct { B *P2.B }` of package `P1`. -/
def recA : structType :=
  { pkg := pkgP1, name := "A", fullName := "P1.A", struc := [("B", .Pointer (.Named namedB))] }

/-- The record `type B struct { N int }` of package `P2`. -/
def recB : structType :=
  { pkg := pkgP2, name := "B", fullName := "P2.B", struc := [("N", .Basic "int")] }

/-- The record set of the sample program. -/
def sampleStructs : GoMap structType := ⟨[("P1.A", recA), ("P2.B", recB)]⟩

/-- The record `type L struct { Next *L }` of package `P1`. -/
def recL : structType :=
  { pkg := pkgP1, name := "L", fullName := "P1.L",
    struc := [("Next", .Pointer (.Named { pkg := some "P1", name := "L" }))] }

/-- The record `type D struct { L *P1.L }` of package `P2`. -/
def recD : structType :=
  { pkg := pkgP2, name := "D", fullName := "P2.D",
    struc := [("L", .Pointer (.Named { pkg := some "P1", name := "L" }))] }

/-- The record `type C struct { In <-chan int }` of package `P1`. -/
def recC : structType :=
  { pkg := pkgP1, name := "C", fullName := "P1.C",
    struc := [("In", .Chan .RecvOnly (.Basic "int"))] }

/-- The number of occurrences of a character in a text. -/
def occurrences (c : Char) (s : String) : Nat := s.data.count c

/-- The name declared by an object that is a type name of the package scope
`scope` whose type is a named type with a struct as underlying type. -/
def Object.recordName (underlying : Named → GoType) (scope : Nat) : Object → Option String
  | .TypeName parent name (.Named n) =>
    if parent = scope then
      match underlying n with
      | .Struct _ => some name
      | _ => none
    else none
  | _ => none

/-- The object is a type name of the package scope `scope` whose type is not a
named type, as declared by `type X = int` or `type X = []T`. -/
def Object.isUnnamedAlias (scope : Nat) : Object → Bool
  | .TypeName _ _ (.Named _) => false
  | .TypeName parent _ _ => parent == scope
  | .other => false

/-- The object is a type name declared in another scope than `scope`, such as
the body of a function. -/
def Object.isLocalTypeName (scope : Nat) : Object → Bool
  | .TypeName parent _ _ => parent != scope
  | .other => false

/-- Package `xx/types` of the sample runs. -/
def pkgTypes : Package := { Path := "xx/types", Name := "types", Scope := 1 }

/-- Package `xx/test2` of the sample runs. -/
def pkgTest2 : Package := { Path := "xx/test2", Name := "test2", Scope := 2 }

/-- A `range` that visits the entries in the order of the list. -/
def rangeInOrder (m : GoMap structType) : { l : List (String × structType) // l.Perm m.entries } :=
  ⟨m.entries, List.Perm.refl _⟩

/-- The underlying types of the sample runs: `xx/types.A` is `struct{}`. -/
def sampleUnderlying (n : Named) : GoType :=
  if n = { pkg := some "xx/types", name := "A" } then .Struct [] else .Basic "invalid type"

/-- A loaded program in which `xx/types` declares `defs` and `xx/test2` declares
nothing. -/
def sampleProgram (defs : List Object) : Program :=
  { Imported := ⟨[("xx/types", ⟨pkgTypes, defs⟩), ("xx/test2", ⟨pkgTest2, []⟩)]⟩,
    AllPackages := [(pkgTypes, ⟨pkgTypes, defs⟩), (pkgTest2, ⟨pkgTest2, []⟩)],
    underlying := sampleUnderlying,
    typeString := sampleTypeString }

/-- A run in which loading gives `sampleProgram defs` and nothing else fails. -/
def sampleEnv (defs : List Object) : Env :=
  { load := .ok (sampleProgram defs), range := rangeInOrder, createErr := none, runErr := none }

/-! ## Lemmas on the build loop -/

theorem appendLinks_eq (structs : GoMap structType) (str : structType) (f : Var)
    (names : List Named) (links : List useInfo) :
    appendLinks structs str f names links =
      links ++ (names.filter (fun n => (structs.get? n.String).isSome)).map
        (fun n => { FromStruct := str.fullName, FromField := f.Name, ToStruct := n.String }) := by
  induction names generalizing links with
  | nil => simp [appendLinks]
  | cons n rest ih =>
    by_cases h : (structs.get? n.String).isSome = true
    · simp [appendLinks, h, ih]
    · simp [appendLinks, h, ih]

theorem fieldLoop_eq (typeString : GoType → Option Package → String) (structs : GoMap structType)
    (str : structType) (fs : List Var) (links : List useInfo) (s : structInfo) :
    fieldLoop typeString structs str fs (links, s) =
      (links ++ fs.flatMap (specFieldEdges structs str),
       { s with Fields := s.Fields ++ fs.map (fun f =>
          { Name := f.Name, Typ := typeString f.Type (some str.pkg),
            FullType := typeString f.Type none }) }) := by
  induction fs generalizing links s with
  | nil => simp [fieldLoop]
  | cons f rest ih =>
    simp [fieldLoop, ih, appendLinks_eq, specFieldEdges]

theorem structLoop_eq (typeString : GoType → Option Package → String) (structs : GoMap structType)
    (order : List structType) (out : List String) (links : List useInfo) :
    structLoop typeString structs order (out, links) =
      (out ++ order.map (fun str => structTmpl (specNode typeString str)),
       links ++ order.flatMap (specRecordEdges structs)) := by
  induction order generalizing out links with
  | nil => simp [structLoop]
  | cons str rest ih =>
    simp [structLoop, ih, fieldLoop_eq, specRecordEdges, specNode]

theorem arrowLoop_eq (links : List useInfo) (out : List String) :
    arrowLoop links out = out ++ links.map arrowTmpl := by
  induction links generalizing out with
  | nil => simp [arrowLoop]
  | cons l rest ih => simp [arrowLoop, ih]

/-! ## findNamedTypes -/

/-- C1: whatever pointer, array, slice and channel constructors are nested around
a named type `N`, in any number and order, `findNamedTypes` returns `[N]`. -/
theorem findNamedTypes_wrapAll (ws : List Wrapper) (N : Named) :
    findNamedTypes (wrapAll ws (.Named N)) = [N] := by
  induction ws with
  | nil => rfl
  | cons w rest ih =>
    cases w <;> simpa [wrapAll, Wrapper.apply, findNamedTypes] using ih

/-- C2: for a map type the result is the result for the key followed by the
result for the value, nothing removed; a map from `N` to `N` gives `[N, N]`. -/
theorem findNamedTypes_map :
    (∀ K V : GoType, findNamedTypes (.Map K V) = findNamedTypes K ++ findNamedTypes V) ∧
    (∀ N : Named, findNamedTypes (.Map (.Named N) (.Named N)) = [N, N]) := by
  constructor
  · intro K V
    simp [findNamedTypes]
  · intro N
    simp [findNamedTypes]

theorem findNamedTypes_of_not_containsNamed :
    ∀ t : GoType, containsNamed t = false → findNamedTypes t = []
  | .Basic _, _ => by simp [findNamedTypes]
  | .Named _, h => by simp [containsNamed] at h
  | .Pointer elem, h => by
    simp only [containsNamed] at h
    simpa [findNamedTypes] using findNamedTypes_of_not_containsNamed elem h
  | .Array _ elem, h => by
    simp only [containsNamed] at h
    simpa [findNamedTypes] using findNamedTypes_of_not_containsNamed elem h
  | .Slice elem, h => by
    simp only [containsNamed] at h
    simpa [findNamedTypes] using findNamedTypes_of_not_containsNamed elem h
  | .Map key elem, h => by
    simp only [containsNamed, Bool.or_eq_false_iff] at h
    simp [findNamedTypes, findNamedTypes_of_not_containsNamed key h.1,
      findNamedTypes_of_not_containsNamed elem h.2]
  | .Chan _ elem, h => by
    simp only [containsNamed] at h
    simpa [findNamedTypes] using findNamedTypes_of_not_containsNamed elem h
  | .Struct _, _ => by simp [findNamedTypes]
  | .Interface _, _ => by simp [findNamedTypes]
  | .Signature _ _, _ => by simp [findNamedTypes]
  | .Tuple _, _ => by simp [findNamedTypes]

/-- C10: `findNamedTypes` returns the empty sequence for a type expression that
contains no named type anywhere, and for a type whose outermost constructor is
none of named, pointer, array, slice, map or channel. -/
theorem findNamedTypes_empty (t : GoType)
    (h : containsNamed t = false ∨ t.isOtherKind = true) : findNamedTypes t = [] := by
  rcases h with h | h
  · exact findNamedTypes_of_not_containsNamed t h
  · cases t <;> simp [GoType.isOtherKind] at h <;> simp [findNamedTypes]

/-- Witness of C10: the type `[]map[string]int` contains no named type, and the
function type `func(time.Time)` is of another kind than the six searched. -/
theorem findNamedTypes_empty_witness :
    (containsNamed (.Slice (.Map (.Basic "string") (.Basic "int"))) = false ∨
      (GoType.Slice (.Map (.Basic "string") (.Basic "int"))).isOtherKind = true) ∧
    findNamedTypes (.Slice (.Map (.Basic "string") (.Basic "int"))) = [] ∧
    findNamedTypes (.Signature [.Named ⟨some "time", "Time"⟩] []) = [] :=
  ⟨Or.inl (by decide),
   findNamedTypes_empty (.Slice (.Map (.Basic "string") (.Basic "int"))) (Or.inl (by decide)),
   findNamedTypes_empty (.Signature [.Named ⟨some "time", "Time"⟩] []) (Or.inr (by decide))⟩

/-! ## The edges of the build loop -/

/-- C3: the links appended by the build loop for one field are the references
found by `findNamedTypes` in the field type, those whose full name is not a key
of the record set removed, in the same order and multiplicity, each as a link
from the record and field; the links of the whole loop are those of the fields
of the records, in order.  A field of type `map[A]A` with `A` in the record set
gives two links to `A`; a named type outside the record set gives none, and
every link targets a key of the record set. -/
theorem fieldLoop_links_spec :
    (∀ (ts : GoType → Option Package → String) (structs : GoMap structType) (str : structType)
        (f : Var) (links : List useInfo) (s : structInfo),
        (fieldLoop ts structs str [f] (links, s)).1 = links ++ specFieldEdges structs str f) ∧
    (∀ (ts : GoType → Option Package → String) (structs : GoMap structType)
        (order : List structType) (out : List String) (links : List useInfo),
        (structLoop ts structs order (out, links)).2 =
          links ++ order.flatMap (specRecordEdges structs)) ∧
    (∀ (ts : GoType → Option Package → String) (structs : GoMap structType) (str : structType)
        (fname : String) (A : Named) (links : List useInfo) (s : structInfo),
        (structs.get? A.String).isSome = true →
        (fieldLoop ts structs str [(fname, .Map (.Named A) (.Named A))] (links, s)).1 =
          links ++ [{ FromStruct := str.fullName, FromField := fname, ToStruct := A.String },
                    { FromStruct := str.fullName, FromField := fname, ToStruct := A.String }]) ∧
    (∀ (ts : GoType → Option Package → String) (structs : GoMap structType) (str : structType)
        (fname : String) (n : Named) (links : List useInfo) (s : structInfo),
        structs.get? n.String = none →
        (fieldLoop ts structs str [(fname, .Named n)] (links, s)).1 = links) ∧
    (∀ (ts : GoType → Option Package → String) (structs : GoMap structType) (str : structType)
        (f : Var) (s : structInfo),
        ∀ e ∈ (fieldLoop ts structs str [f] ([], s)).1, (structs.get? e.ToStruct).isSome = true) := by
  refine ⟨?_, ?_, ?_, ?_, ?_⟩
  · intro ts structs str f links s
    simp [fieldLoop_eq]
  · intro ts structs order out links
    simp [structLoop_eq]
  · intro ts structs str fname A links s h
    simp [fieldLoop_eq, specFieldEdges, findNamedTypes, Var.Type, Var.Name, h]
  · intro ts structs str fname n links s h
    simp [fieldLoop_eq, specFieldEdges, findNamedTypes, Var.Type, h]
  · intro ts structs str f s e he
    simp only [fieldLoop_eq, List.nil_append, List.flatMap_cons, List.flatMap_nil,
      List.append_nil, specFieldEdges, List.mem_map, List.mem_filter] at he
    obtain ⟨n, ⟨_, hn⟩, rfl⟩ := he
    exact hn

/-- Witness of C3: in the record set of `P1.A` and `P2.B`, a field `M` of type
`map[A]A` of record `A` gives two links to `P1.A`. -/
theorem fieldLoop_links_spec_witness :
    (sampleStructs.get? namedA.String).isSome = true ∧
    (fieldLoop sampleTypeString sampleStructs recA
        [("M", .Map (.Named namedA) (.Named namedA))] ([], ⟨"A", "P1.A", []⟩)).1 =
      [] ++ [{ FromStruct := recA.fullName, FromField := "M", ToStruct := namedA.String },
             { FromStruct := recA.fullName, FromField := "M", ToStruct := namedA.String }] :=
  ⟨by decide,
   fieldLoop_links_spec.2.2.1 sampleTypeString sampleStructs recA "M" namedA []
     ⟨"A", "P1.A", []⟩ (by decide)⟩

/-- C6: when a record `A` of the record set has a field whose type is a pointer
to `A`, `findNamedTypes` returns the one reference `A` for that field type and
the build loop appends exactly one link for the field, the self-loop from `A`
to `A`, wherever the field stands among the fields of `A`. -/
theorem fieldLoop_self_pointer (ts : GoType → Option Package → String)
    (structs : GoMap structType) (str : structType) (n : Named) (fname : String)
    (before after : List Var) (links : List useInfo) (s : structInfo)
    (hkey : (structs.get? str.fullName).isSome = true) (hself : n.String = str.fullName) :
    findNamedTypes (.Pointer (.Named n)) = [n] ∧
    (fieldLoop ts structs str [(fname, .Pointer (.Named n))] (links, s)).1 =
      links ++ [{ FromStruct := str.fullName, FromField := fname, ToStruct := str.fullName }] ∧
    (fieldLoop ts structs str (before ++ (fname, .Pointer (.Named n)) :: after) (links, s)).1 =
      (fieldLoop ts structs str before (links, s)).1
        ++ [{ FromStruct := str.fullName, FromField := fname, ToStruct := str.fullName }]
        ++ after.flatMap (specFieldEdges structs str) := by
  refine ⟨by simp [findNamedTypes], ?_, ?_⟩
  · simp [fieldLoop_eq, specFieldEdges, findNamedTypes, Var.Type, Var.Name, hself, hkey]
  · simp [fieldLoop_eq, specFieldEdges, findNamedTypes, Var.Type, Var.Name, hself, hkey]

/-- Witness of C6: the record `type L struct { Next *L }`, alone in its record
set, gives the single self-loop link. -/
theorem fieldLoop_self_pointer_witness :
    (fieldLoop sampleTypeString ⟨[("P1.L", recL)]⟩ recL recL.struc ([], ⟨"L", "P1.L", []⟩)).1 =
      [{ FromStruct := "P1.L", FromField := "Next", ToStruct := "P1.L" }] :=
  (fieldLoop_self_pointer sampleTypeString ⟨[("P1.L", recL)]⟩ recL
    { pkg := some "P1", name := "L" } "Next" [] [] [] ⟨"L", "P1.L", []⟩ (by decide) (by decide)).2.1

/-! ## The order of the output -/

/-- Counterexample to C5: the record set of `P1.L` and `P2.D` visited in the two
possible orders gives different node sequences and different link sequences. -/
theorem structLoop_order_counterexample :
    [recL, recD].Perm ((GoMap.mk [("P1.L", recL), ("P2.D", recD)]).entries.map Prod.snd) ∧
    [recD, recL].Perm ((GoMap.mk [("P1.L", recL), ("P2.D", recD)]).entries.map Prod.snd) ∧
    (structLoop sampleTypeString ⟨[("P1.L", recL), ("P2.D", recD)]⟩ [recL, recD] ([], [])).1 ≠
      (structLoop sampleTypeString ⟨[("P1.L", recL), ("P2.D", recD)]⟩ [recD, recL] ([], [])).1 ∧
    (structLoop sampleTypeString ⟨[("P1.L", recL), ("P2.D", recD)]⟩ [recL, recD] ([], [])).2 =
      [⟨"P1.L", "Next", "P1.L"⟩, ⟨"P2.D", "L", "P1.L"⟩] ∧
    (structLoop sampleTypeString ⟨[("P1.L", recL), ("P2.D", recD)]⟩ [recD, recL] ([], [])).2 =
      [⟨"P2.D", "L", "P1.L"⟩, ⟨"P1.L", "Next", "P1.L"⟩] := by
  refine ⟨List.Perm.refl _, List.Perm.swap _ _ _, ?_, ?_, ?_⟩
  · decide
  · decide
  · decide

/-- C5, amended: the node statements and the links follow the order in which the
records are visited; for two orders of the same records the node sequences are
permutations of each other, and so are the link sequences. -/
theorem structLoop_perm (ts : GoType → Option Package → String) (structs : GoMap structType)
    (o1 o2 : List structType) (h : o1.Perm o2) :
    structLoop ts structs o1 ([], []) =
      (o1.map (fun str => structTmpl (specNode ts str)), o1.flatMap (specRecordEdges structs)) ∧
    (structLoop ts structs o1 ([], [])).1.Perm (structLoop ts structs o2 ([], [])).1 ∧
    (structLoop ts structs o1 ([], [])).2.Perm (structLoop ts structs o2 ([], [])).2 := by
  refine ⟨by simp [structLoop_eq], ?_, ?_⟩
  · simpa [structLoop_eq] using h.map _
  · simpa [structLoop_eq] using h.flatMap_right _

/-- Witness of C5, amended, at the two orders of the records `P1.L` and `P2.D`. -/
theorem structLoop_perm_witness :
    [recL, recD].Perm [recD, recL] ∧
    (structLoop sampleTypeString ⟨[("P1.L", recL), ("P2.D", recD)]⟩ [recL, recD] ([], [])).2.Perm
      (structLoop sampleTypeString ⟨[("P1.L", recL), ("P2.D", recD)]⟩ [recD, recL] ([], [])).2 :=
  ⟨List.Perm.swap _ _ _,
   (structLoop_perm sampleTypeString ⟨[("P1.L", recL), ("P2.D", recD)]⟩ [recL, recD] [recD, recL]
     (List.Perm.swap _ _ _)).2.2⟩

/-! ## The templates -/

theorem occurrences_append (c : Char) (s t : String) :
    occurrences c (s ++ t) = occurrences c s + occurrences c t := by
  simp [occurrences]

theorem occurrences_foldl (c : Char) (l : List String) (acc : String) :
    occurrences c (l.foldl (fun r s => r ++ s) acc) =
      occurrences c acc + (l.map (occurrences c)).sum := by
  induction l generalizing acc with
  | nil => simp
  | cons x rest ih => simp [ih, occurrences_append, Nat.add_assoc]

theorem occurrences_join (c : Char) (l : List String) :
    occurrences c (String.join l) = (l.map (occurrences c)).sum := by
  unfold String.join
  rw [occurrences_foldl]
  simp [occurrences]

theorem occurrences_empty (c : Char) : occurrences c "" = 0 := rfl

set_option maxRecDepth 100000 in
/-- Counterexample to C9: for the record `type C struct { In <-chan int }` the
build loop renders a node statement in which the display type `<-chan int`
stands unescaped inside the label: the statement has one `<` more than the
fixed text of the template for a record of one field. -/
theorem structTmpl_escape_counterexample :
    (structLoop sampleTypeString ⟨[("P1.C", recC)]⟩ [recC] ([], [])).1 =
      ["\"P1.C\" [\n    label=<\n    <TABLE BORDER=\"0\" CELLBORDER=\"1\" CELLSPACING=\"0\" BGCOLOR=\"#ffffff\">\n      <TR><TD COLSPAN=\"3\" BGCOLOR=\"#e0e0ff\" ALIGN=\"CENTER\">C</TD></TR>\n            <TR><TD PORT=\"XIn\" COLSPAN=\"1\" BGCOLOR=\"#f0f0ff\" ALIGN=\"LEFT\">In</TD> <TD PORT=\"In\" COLSPAN=\"2\" BGCOLOR=\"#f0f0ff\" ALIGN=\"LEFT\"><-chan int</TD></TR>\n      \n    </TABLE>>\n    tooltip=\"P1.C\"\n  ];\n"] ∧
    occurrences '<' (structTmpl (specNode sampleTypeString recC)) = 14 ∧
    occurrences '<' (structTmpl ⟨"", "", [⟨"", "", ""⟩]⟩) = 13 := by
  refine ⟨?_, ?_, ?_⟩
  · decide
  · decide
  · decide

/-- C9, amended: the templates copy names and display types into the statement
as they are, without escaping: the number of occurrences of any character in a
rendered statement is the number in the fixed text of the template plus the
number in each inserted value, counted once for every place where the value is
inserted. -/
theorem templates_copy_verbatim (c : Char) :
    (∀ s : structInfo, occurrences c (structTmpl s) =
      occurrences c (structTmpl ⟨"", "", s.Fields.map (fun _ => ⟨"", "", ""⟩)⟩)
        + 2 * occurrences c s.FullName + occurrences c s.Name
        + (s.Fields.map (fun f => 3 * occurrences c f.Name + occurrences c f.Typ)).sum) ∧
    (∀ l : useInfo, occurrences c (arrowTmpl l) =
      occurrences c (arrowTmpl ⟨"", "", ""⟩)
        + occurrences c l.FromStruct + occurrences c l.FromField + occurrences c l.ToStruct) := by
  constructor
  · intro s
    have hrows : ∀ fs : List field,
        ((fs.map structTmplField).map (occurrences c)).sum =
          (((fs.map (fun _ => (⟨"", "", ""⟩ : field))).map structTmplField).map (occurrences c)).sum
            + (fs.map (fun f => 3 * occurrences c f.Name + occurrences c f.Typ)).sum := by
      intro fs
      induction fs with
      | nil => simp
      | cons f rest ih =>
        simp only [List.map_cons, List.sum_cons, ih, structTmplField, occurrences_append,
          occurrences_empty]
        omega
    simp only [structTmpl, occurrences_append, occurrences_join, occurrences_empty]
    rw [hrows s.Fields]
    omega
  · intro l
    simp only [arrowTmpl, occurrences_append, occurrences_empty]
    omega

/-! ## findStructs -/

theorem GoMap.mem_keys_set {ν : Type} (m : GoMap ν) (k : String) (v : ν) (x : String) :
    x ∈ (m.set k v).keys ↔ x = k ∨ x ∈ m.keys := by
  simp only [GoMap.keys, GoMap.set, List.map_append, List.mem_append, List.mem_map,
    List.mem_filter, List.map_cons, List.map_nil, List.mem_singleton]
  constructor
  · rintro (⟨e, ⟨he, _⟩, rfl⟩ | h)
    · exact Or.inr ⟨e, he, rfl⟩
    · exact Or.inl h
  · rintro (h | ⟨e, he, rfl⟩)
    · exact Or.inr h
    · by_cases hk : e.1 = k
      · exact Or.inr hk
      · exact Or.inl ⟨e, ⟨he, by simpa using hk⟩, rfl⟩

theorem findStructsLoop_keys (underlying : Named → GoType) (pkg : Package) (defs : List Object)
    (ret : GoMap structType)
    (h : ∀ o ∈ defs, Object.isUnnamedAlias pkg.Scope o = false) :
    ∃ m, findStructsLoop underlying pkg defs ret = some m ∧
      ∀ k, k ∈ m.keys ↔ k ∈ ret.keys ∨ ∃ o ∈ defs, ∃ name,
        Object.recordName underlying pkg.Scope o = some name ∧ k = pkg.Path ++ "." ++ name := by
  induction defs generalizing ret with
  | nil => exact ⟨ret, rfl, by simp⟩
  | cons o rest ih =>
    have hrest : ∀ o ∈ rest, Object.isUnnamedAlias pkg.Scope o = false :=
      fun x hx => h x (List.mem_cons_of_mem _ hx)
    have ho := h o (List.mem_cons_self _ _)
    cases o with
    | other =>
      obtain ⟨m, hm, hk⟩ := ih ret hrest
      refine ⟨m, by simpa only [findStructsLoop] using hm, ?_⟩
      intro k
      rw [hk]
      simp [Object.recordName]
    | TypeName parent name typ =>
      by_cases hp : parent = pkg.Scope
      · cases typ with
        | Named n =>
          cases hu : underlying n with
          | Struct fields =>
            obtain ⟨m, hm, hk⟩ := ih (ret.set (pkg.Path ++ "." ++ name)
              { pkg := pkg, name := name, fullName := pkg.Path ++ "." ++ name,
                struc := fields }) hrest
            refine ⟨m, by simpa [findStructsLoop, hp, hu] using hm, ?_⟩
            intro k
            rw [hk, GoMap.mem_keys_set]
            simp [Object.recordName, hp, hu]
            tauto
          | _ =>
            obtain ⟨m, hm, hk⟩ := ih ret hrest
            refine ⟨m, by simpa [findStructsLoop, hp, hu] using hm, ?_⟩
            intro k
            rw [hk]
            simp [Object.recordName, hp, hu]
        | _ => simp [Object.isUnnamedAlias, hp] at ho
      · obtain ⟨m, hm, hk⟩ := ih ret hrest
        refine ⟨m, by simpa [findStructsLoop, hp] using hm, ?_⟩
        intro k
        rw [hk]
        cases typ <;> simp [Object.recordName, hp]

theorem findStructsLoop_filter_local (underlying : Named → GoType) (pkg : Package)
    (defs : List Object) (ret : GoMap structType) :
    findStructsLoop underlying pkg
        (defs.filter (fun o => !Object.isLocalTypeName pkg.Scope o)) ret =
      findStructsLoop underlying pkg defs ret := by
  induction defs generalizing ret with
  | nil => rfl
  | cons o rest ih =>
    by_cases hl : Object.isLocalTypeName pkg.Scope o = true
    · have hskip : findStructsLoop underlying pkg (o :: rest) ret =
          findStructsLoop underlying pkg rest ret := by
        cases o with
        | other => simp [Object.isLocalTypeName] at hl
        | TypeName parent name typ =>
          have hp : parent ≠ pkg.Scope := by simpa [Object.isLocalTypeName] using hl
          simp [findStructsLoop, hp]
      rw [List.filter_cons, hskip]
      simp only [hl, Bool.not_true, Bool.false_eq_true, if_false]
      exact ih ret
    · have hl2 : Object.isLocalTypeName pkg.Scope o = false := by simpa using hl
      rw [List.filter_cons]
      simp only [hl2, Bool.not_false, if_true]
      cases o with
      | other => simp only [findStructsLoop, ih]
      | TypeName parent name typ => simp only [findStructsLoop, ih]

/-- For a package in which every type name of the package scope has a named
type, `findStructs` returns a map whose keys are exactly the full names of the
type names of the package scope with a struct as underlying type, and the type
names of other scopes have no effect on the map. -/
theorem findStructs_keys (underlying : Named → GoType) (pkg : PackageInfo)
    (h : ∀ o ∈ pkg.Defs, Object.isUnnamedAlias pkg.Pkg.Scope o = false) :
    (∃ m, findStructs underlying (some pkg) = some m ∧
      ∀ k, k ∈ m.keys ↔ ∃ o ∈ pkg.Defs, ∃ name,
        Object.recordName underlying pkg.Pkg.Scope o = some name ∧
          k = pkg.Pkg.Path ++ "." ++ name) ∧
    findStructs underlying
        (some { pkg with Defs := pkg.Defs.filter (fun o => !Object.isLocalTypeName pkg.Pkg.Scope o) }) =
      findStructs underlying (some pkg) := by
  constructor
  · obtain ⟨m, hm, hk⟩ := findStructsLoop_keys underlying pkg.Pkg pkg.Defs GoMap.empty h
    refine ⟨m, hm, ?_⟩
    intro k
    rw [hk]
    simp [GoMap.keys, GoMap.empty]
  · exact findStructsLoop_filter_local underlying pkg.Pkg pkg.Defs GoMap.empty

/-- C4: in a package that declares `type X = int` at package level, the type of
the type name `X` is not a named type and the assertion in `findStructs`
panics: no map is returned. -/
theorem findStructs_alias_panics :
    findStructs sampleUnderlying (some ⟨pkgTypes, [.TypeName 1 "X" (.Basic "int")]⟩) = none ∧
    findStructs sampleUnderlying
      (some ⟨pkgTypes, [.TypeName 1 "A" (.Named ⟨some "xx/types", "A"⟩),
                        .TypeName 1 "X" (.Basic "int")]⟩) = none := by
  constructor <;> rfl

/-! ## main -/

theorem bind_apply {α β : Type} (m : M α) (f : α → M β) (w : World) :
    (m >>= f) w = match m w with
      | .ok a w1 => f a w1
      | .exited c w1 => .exited c w1
      | .panicked w1 => .panicked w1 := rfl

theorem abort_apply (format : String) (params : List String) (w : World) :
    abort format params w = .exited 2 { w with stderr := w.stderr ++ sprintf format params } := rfl

theorem printPackages_apply (l : List (Package × PackageInfo)) (w : World) :
    ∃ text, printPackages l w = .ok () { w with stdout := w.stdout ++ text } := by
  induction l generalizing w with
  | nil => exact ⟨"", by simp [printPackages, pure]⟩
  | cons p rest ih =>
    obtain ⟨k, v⟩ := p
    obtain ⟨text, ht⟩ := ih { w with stdout := w.stdout ++ k.Path ++ " " ++ v.Pkg.Name ++ "\n" }
    refine ⟨k.Path ++ " " ++ v.Pkg.Name ++ "\n" ++ text, ?_⟩
    simp only [printPackages, bind_apply, println, ht]
    simp [String.append_assoc]

theorem findStructsLoop_no_records (underlying : Named → GoType) (pkg : Package)
    (defs : List Object) (ret : GoMap structType)
    (h : ∀ o ∈ defs, Object.recordName underlying pkg.Scope o = none ∧
      Object.isUnnamedAlias pkg.Scope o = false) :
    findStructsLoop underlying pkg defs ret = some ret := by
  induction defs generalizing ret with
  | nil => rfl
  | cons o rest ih =>
    have hrest := ih ret (fun x hx => h x (List.mem_cons_of_mem _ hx))
    have ho := h o (List.mem_cons_self _ _)
    cases o with
    | other => simpa only [findStructsLoop] using hrest
    | TypeName parent name typ =>
      by_cases hp : parent = pkg.Scope
      · cases typ with
        | Named n =>
          cases hu : underlying n with
          | Struct fields => simp [Object.recordName, hp, hu] at ho
          | _ => simpa [findStructsLoop, hp, hu] using hrest
        | _ => simp [Object.isUnnamedAlias, hp] at ho
      · simpa [findStructsLoop, hp] using hrest

theorem collectStructs_no_records (env : Env) (prog : Program) (pkgNames : List String)
    (structs : GoMap structType)
    (h : ∀ name ∈ pkgNames, ∃ pkg, prog.Imported.get? name = some pkg ∧
      ∀ o ∈ pkg.Defs, Object.recordName prog.underlying pkg.Pkg.Scope o = none ∧
        Object.isUnnamedAlias pkg.Pkg.Scope o = false) :
    collectStructs env prog pkgNames structs = some structs := by
  induction pkgNames with
  | nil => rfl
  | cons name rest ih =>
    obtain ⟨pkg, hpkg, hdefs⟩ := h name (List.mem_cons_self _ _)
    have hfound : findStructs prog.underlying (some pkg) = some GoMap.empty :=
      findStructsLoop_no_records prog.underlying pkg.Pkg pkg.Defs GoMap.empty hdefs
    have hrange : (env.range GoMap.empty).1 = [] := by
      have hp := (env.range GoMap.empty).2
      simpa [GoMap.empty] using hp
    simp only [collectStructs, hpkg, hfound, hrange, copyStructs]
    exact ih (fun x hx => h x (List.mem_cons_of_mem _ hx))

/-- Counterexample to C7: when the two selected packages declare nothing, the
run ends with status 2 and the text on the standard error stream is
"No structures to print", which is not "no records to process". -/
theorem main_message_counterexample :
    main (sampleEnv []) World.initial =
      .exited 2 { stdout := "", stderr := "No structures to print", files := [], commands := [] } ∧
    "No structures to print" ≠ "no records to process" := by
  constructor
  · rfl
  · decide

/-- C7, amended: when every selected package is loaded, its type names of the
package scope all have a named type and none of them has a struct as
underlying type (and also when no package is selected), the run writes
"No structures to print" to the standard error stream and ends with status 2;
nothing else changes, so no output document is written. -/
theorem mainWith_no_records (pkgNames : List String) (env : Env) (prog : Program) (w : World)
    (hload : env.load = .ok prog)
    (hnone : ∀ name ∈ pkgNames, ∃ pkg, prog.Imported.get? name = some pkg ∧
      ∀ o ∈ pkg.Defs, Object.recordName prog.underlying pkg.Pkg.Scope o = none ∧
        Object.isUnnamedAlias pkg.Pkg.Scope o = false) :
    mainWith pkgNames env w =
      .exited 2 { w with stderr := w.stderr ++ "No structures to print" } := by
  have hc := collectStructs_no_records env prog pkgNames GoMap.empty hnone
  simp only [mainWith, hload, bind_apply, must, pure, hc]
  rfl

/-- Witness of C7, amended: `xx/types` declares a variable and, inside a
function body, a struct type `A`; `xx/test2` declares nothing. -/
theorem mainWith_no_records_witness :
    (sampleEnv [.other, .TypeName 7 "A" (.Named ⟨some "xx/types", "A"⟩)]).load =
      .ok (sampleProgram [.other, .TypeName 7 "A" (.Named ⟨some "xx/types", "A"⟩)]) ∧
    main (sampleEnv [.other, .TypeName 7 "A" (.Named ⟨some "xx/types", "A"⟩)]) World.initial =
      .exited 2 { World.initial with stderr := World.initial.stderr ++ "No structures to print" } :=
  ⟨rfl,
   mainWith_no_records ["xx/types", "xx/test2"]
    (sampleEnv [.other, .TypeName 7 "A" (.Named ⟨some "xx/types", "A"⟩)])
    (sampleProgram [.other, .TypeName 7 "A" (.Named ⟨some "xx/types", "A"⟩)]) World.initial rfl
    (by
      intro name hname
      rcases List.mem_cons.1 hname with rfl | hname
      · exact ⟨⟨pkgTypes, [.other, .TypeName 7 "A" (.Named ⟨some "xx/types", "A"⟩)]⟩, rfl,
          by simp [Object.recordName, Object.isUnnamedAlias, pkgTypes]⟩
      · rcases List.mem_cons.1 hname with rfl | hname
        · exact ⟨⟨pkgTest2, []⟩, rfl, by simp⟩
        · cases hname)⟩

/-- Whatever the input, `mainWith` never returns normally: it ends by a panic or
with exit status 2, and it neither creates a file nor runs a command. -/
theorem mainWith_no_document (pkgNames : List String) (env : Env) (w : World) :
    ∃ w1, (mainWith pkgNames env w = .exited 2 w1 ∨ mainWith pkgNames env w = .panicked w1) ∧
      w1.files = w.files ∧ w1.commands = w.commands := by
  cases hload : env.load with
  | error e =>
    refine ⟨{ w with stderr := w.stderr ++ sprintf "%s" [e] }, Or.inl ?_, rfl, rfl⟩
    simp only [mainWith, hload, bind_apply, must, abort_apply, Option.toList]
  | ok prog =>
    cases hc : collectStructs env prog pkgNames GoMap.empty with
    | none =>
      refine ⟨w, Or.inr ?_, rfl, rfl⟩
      simp only [mainWith, hload, bind_apply, must, pure, hc]
      rfl
    | some structs =>
      by_cases hlen : (structs.len == 0) = true
      · refine ⟨{ w with stderr := w.stderr ++ sprintf "No structures to print" [] },
          Or.inl ?_, rfl, rfl⟩
        simp only [mainWith, hload, bind_apply, must, pure, hc, hlen, if_true, abort_apply]
      · obtain ⟨text, ht⟩ := printPackages_apply prog.AllPackages w
        refine ⟨{ w with stdout := w.stdout ++ text }, Or.inl ?_, rfl, rfl⟩
        have hlen2 : (structs.len == 0) = false := by simpa using hlen
        simp only [mainWith, hload, bind_apply, must, pure, hc, hlen2, Bool.false_eq_true,
          if_false, ht, osExit]

/-- C8: when `xx/types` declares `type A struct{}`, the record set is not empty,
yet the run prints the packages and ends with status 2 at the `os.Exit(2)` that
follows: no file is created, no document is produced. -/
theorem main_exits_before_document :
    collectStructs (sampleEnv [.TypeName 1 "A" (.Named ⟨some "xx/types", "A"⟩)])
        (sampleProgram [.TypeName 1 "A" (.Named ⟨some "xx/types", "A"⟩)])
        ["xx/types", "xx/test2"] GoMap.empty =
      some ⟨[("xx/types.A", { pkg := pkgTypes, name := "A", fullName := "xx/types.A", struc := [] })]⟩ ∧
    main (sampleEnv [.TypeName 1 "A" (.Named ⟨some "xx/types", "A"⟩)]) World.initial =
      .exited 2 { stdout := "xx/types types\nxx/test2 test2\n", stderr := "", files := [],
                  commands := [] } := by
  constructor
  · rfl
  · rfl

end Typegraph
